import Mathlib

/-!
Verification of the form-data persistence and sanitization layer of the
slsp-soc-banka questionnaire application.

The definitions below are a shallow embedding of
`src/database/snowflake_manager.py` (class `SnowflakeManager`) and of the
persistence/row-editor helpers in `src/app_ws.py`.  Python strings are
modelled as Lean `String` (manipulated through their `List Char` data),
Python `dict`/`list` form records as the mutual inductive `Value` /
`VList` / `VFields`, and the Snowflake table as a function from CID to an
optional stored row.  Machine-level details (logging, Streamlit session
plumbing) carry no data flow and are not modelled.
-/

/-! ## Characters used by the sanitizer

The double-quote and single-quote characters are built from their code
points to keep the embedding readable next to the Python source, which
writes them as string literals. -/

def dqChar : Char := Char.ofNat 34

def sqChar : Char := Char.ofNat 39

/-- Step 1 of `SnowflakeManager.sanitize_form_data`
(snowflake_manager.py line 200): replace newline, carriage return and tab
by a space.  `value.replace` of a single character by a space acts
pointwise on characters. -/
def step1Char (c : Char) : Char :=
  if c = Char.ofNat 10 ∨ c = Char.ofNat 13 ∨ c = Char.ofNat 9 then ' ' else c

/-- The character class of the regex `[\x00-\x08\x0B\x0C\x0E-\x1F\x7F]`
used in step 2 (line 203). -/
def isCtlChar (c : Char) : Bool :=
  c.toNat ≤ 8 || c.toNat = 11 || c.toNat = 12 ||
    (14 ≤ c.toNat && c.toNat ≤ 31) || c.toNat = 127

/-- Step 2 (line 203): replace the remaining control characters by a
space. -/
def step2Char (c : Char) : Char :=
  if isCtlChar c then ' ' else c

/-- The combined pointwise effect of steps 1 and 2. -/
def sanChar (c : Char) : Char := step2Char (step1Char c)

/-- First half of step 3 (line 206): `re.sub(r' +', ' ', s)` replaces
every maximal run of spaces by a single space; equivalently it drops a
space whenever the next character is again a space. -/
def collapseSpaces : List Char → List Char
  | [] => []
  | [c] => [c]
  | c :: d :: rest =>
    if c = ' ' ∧ d = ' ' then collapseSpaces (d :: rest)
    else c :: collapseSpaces (d :: rest)

/-- The character set stripped by Python `str.strip()` with no argument:
all characters whose `str.isspace()` is true. -/
def isPyWs (c : Char) : Bool :=
  let n := c.toNat
  (9 ≤ n && n ≤ 13) || (28 ≤ n && n ≤ 31) || n = 32 || n = 0x85 || n = 0xA0 ||
    n = 0x1680 || (0x2000 ≤ n && n ≤ 0x200A) || n = 0x2028 || n = 0x2029 ||
    n = 0x202F || n = 0x205F || n = 0x3000

def pyLstrip (l : List Char) : List Char := l.dropWhile (fun c => isPyWs c)

def pyRstrip (l : List Char) : List Char :=
  (l.reverse.dropWhile (fun c => isPyWs c)).reverse

/-- Second half of step 3 (line 206): Python `.strip()`. -/
def pyStrip (l : List Char) : List Char := pyRstrip (pyLstrip l)

def pyStripStr (s : String) : String := String.mk (pyStrip s.data)

/-- First part of step 4 (line 209): the source file is plain ASCII, so
the three successive `.replace` calls on that line all remove the ASCII
double quote; removing every occurrence of a single character equals a
filter. -/
def removeDq (l : List Char) : List Char := l.filter (fun c => c ≠ dqChar)

/-- Second part of step 4 (line 210).  The source line is
`sanitized_value.replace(''', '').replace(''', '')` in a plain-ASCII
file; Python tokenizes the part between the first and last `(''`/`'')`
as one triple-quoted string, so the whole line is a single
`replace(p, q)` call whose pattern `p` is the fifteen-character text
comma, space, quote, quote, paren, paren, dot, r, e, p, l, a, c, e,
paren and whose replacement `q` is empty.  No single-quote or curly
quote character is removed. -/
def oddPat : List Char :=
  [',', ' ', sqChar, sqChar, ')', ')', '.', 'r', 'e', 'p', 'l', 'a', 'c', 'e', '(']

/-- Python `str.replace(p, "")` for the fixed non-empty pattern `oddPat`:
scan left to right, drop each occurrence and continue after it.  The
fuel argument only forces structural recursion; every occurrence of the
pattern consumes fifteen characters, so fuel equal to the length of the
input (supplied by `removeOddPat`) is never exhausted. -/
def removeOddPatAux : Nat → List Char → List Char
  | 0, l => l
  | _ + 1, [] => []
  | fuel + 1, c :: cs =>
    if oddPat.isPrefixOf (c :: cs) then removeOddPatAux fuel ((c :: cs).drop oddPat.length)
    else c :: removeOddPatAux fuel cs

def removeOddPat (l : List Char) : List Char := removeOddPatAux l.length l

/-- Step 4 (lines 209-210) as actually executed. -/
def step4 (l : List Char) : List Char := removeOddPat (removeDq l)

/-- The full string sanitization of `SnowflakeManager.sanitize_form_data`
(lines 197-210, applied identically to list items at lines 221-225):
steps 1 and 2 pointwise, then collapse space runs and strip, then the
quote-removal step. -/
def sanitizeChars (l : List Char) : List Char :=
  step4 (pyStrip (collapseSpaces ((l.map step1Char).map step2Char)))

def sanitize_string (s : String) : String := String.mk (sanitizeChars s.data)

/-! ## The form-record data model

A Python form record is a `dict` whose values are strings, scalars
(numbers, booleans, None, dates) or lists of strings/records.  Scalars
other than strings are never inspected by the persistence layer, so the
embedding keeps integers, booleans and null as representative non-string
leaves. -/

mutual
inductive Value where
  | vstr (s : String)
  | vint (n : Int)
  | vbool (b : Bool)
  | vnull
  | vlist (xs : VList)
  | vdict (fs : VFields)
inductive VList where
  | nil
  | cons (v : Value) (tl : VList)
inductive VFields where
  | nil
  | cons (k : String) (v : Value) (tl : VFields)
end

mutual
def Value.beq : Value → Value → Bool
  | .vstr a, .vstr b => a = b
  | .vint a, .vint b => a = b
  | .vbool a, .vbool b => a = b
  | .vnull, .vnull => true
  | .vlist a, .vlist b => VList.beq a b
  | .vdict a, .vdict b => VFields.beq a b
  | _, _ => false
def VList.beq : VList → VList → Bool
  | .nil, .nil => true
  | .cons v tl, .cons w tl2 => Value.beq v w && VList.beq tl tl2
  | _, _ => false
def VFields.beq : VFields → VFields → Bool
  | .nil, .nil => true
  | .cons k v tl, .cons k2 w tl2 => k = k2 && Value.beq v w && VFields.beq tl tl2
  | _, _ => false
end

mutual
def Value.beq_iff : ∀ a b : Value, Value.beq a b = true ↔ a = b
  | a, b => by
    cases a <;> cases b <;> simp [Value.beq]
    case vlist.vlist a b => exact VList.beq_iff a b
    case vdict.vdict a b => exact VFields.beq_iff a b
def VList.beq_iff : ∀ a b : VList, VList.beq a b = true ↔ a = b
  | a, b => by
    cases a <;> cases b <;> simp [VList.beq]
    case cons.cons v tl w tl2 =>
      rw [Value.beq_iff, VList.beq_iff]
def VFields.beq_iff : ∀ a b : VFields, VFields.beq a b = true ↔ a = b
  | a, b => by
    cases a <;> cases b <;> simp [VFields.beq]
    case cons.cons k v tl k2 w tl2 =>
      rw [Value.beq_iff, VFields.beq_iff]
      exact and_assoc
end

instance : DecidableEq Value := fun a b => decidable_of_iff _ (Value.beq_iff a b)

instance : DecidableEq VList := fun a b => decidable_of_iff _ (VList.beq_iff a b)

instance : DecidableEq VFields := fun a b => decidable_of_iff _ (VFields.beq_iff a b)

/-! ## `SnowflakeManager.sanitize_form_data` (lines 188-234)

The Python function branches on the runtime type of each value:
  * a string value is sanitized,
  * a list value is sanitized element-wise, where a `dict` element is
    recursed into and a string element is sanitized,
  * every other value (including a `dict` that is a direct value of a
    key, and a list nested inside a list) is kept as-is. -/

mutual
def sanitize_form_data : VFields → VFields
  | .nil => .nil
  | .cons k v tl => .cons k (sanitizeTopValue v) (sanitize_form_data tl)
def sanitizeTopValue : Value → Value
  | .vstr s => .vstr (sanitize_string s)
  | .vlist xs => .vlist (sanitizeListItems xs)
  | v => v
def sanitizeListItems : VList → VList
  | .nil => .nil
  | .cons v tl => .cons (sanitizeItem v) (sanitizeListItems tl)
def sanitizeItem : Value → Value
  | .vdict fs => .vdict (sanitize_form_data fs)
  | .vstr s => .vstr (sanitize_string s)
  | v => v
end

/-! ## Decimal rendering of naturals and integers

Models Python `str(n)` / f-string interpolation of an `int`, used both by
the RowID generator in `app_ws.py` and by JSON serialization. -/

def digitChar (d : Nat) : Char := Char.ofNat (48 + d)

/-- Little-endian decimal digits; the fuel (instantiated with `n` in
`natChars`) only forces structural recursion and is never exhausted
because `n / 10 < n` for `n > 0`. -/
def natCharsAux : Nat → Nat → List Char
  | 0, _ => []
  | _ + 1, 0 => []
  | fuel + 1, n + 1 => digitChar ((n + 1) % 10) :: natCharsAux fuel ((n + 1) / 10)

def natChars (n : Nat) : List Char :=
  if n = 0 then [Char.ofNat 48] else (natCharsAux n n).reverse

def intChars (n : Int) : List Char :=
  if n < 0 then '-' :: natChars n.natAbs else natChars n.natAbs

/-! ## JSON serialization

Models `json.dumps(x, default=str, ensure_ascii=False)` as called at
snowflake_manager.py lines 121, 252 and 270: default separators
(comma-space and colon-space), non-ASCII characters kept verbatim, and
inside strings only the double quote, the backslash and control
characters escaped (`\u00XX` with lowercase hex for control characters
without a short escape).  `default=str` only fires for values outside
the modelled leaf types. -/

def hexDigitChar (n : Nat) : Char :=
  if n < 10 then Char.ofNat (48 + n) else Char.ofNat (87 + n)

def escapeJsonChar (c : Char) : List Char :=
  if c = dqChar then ['\\', dqChar]
  else if c = '\\' then ['\\', '\\']
  else if c = Char.ofNat 10 then ['\\', 'n']
  else if c = Char.ofNat 13 then ['\\', 'r']
  else if c = Char.ofNat 9 then ['\\', 't']
  else if c = Char.ofNat 8 then ['\\', 'b']
  else if c = Char.ofNat 12 then ['\\', 'f']
  else if c.toNat < 32 then
    ['\\', 'u', '0', '0', hexDigitChar (c.toNat / 16), hexDigitChar (c.toNat % 16)]
  else [c]

def jsonStringChars (s : String) : List Char :=
  dqChar :: (s.data.map escapeJsonChar).flatten ++ [dqChar]

mutual
def jsonDumpValue : Value → List Char
  | .vstr s => jsonStringChars s
  | .vint n => intChars n
  | .vbool b => if b then ['t', 'r', 'u', 'e'] else ['f', 'a', 'l', 's', 'e']
  | .vnull => ['n', 'u', 'l', 'l']
  | .vlist xs => Char.ofNat 91 :: jsonDumpList xs ++ [Char.ofNat 93]
  | .vdict fs => Char.ofNat 123 :: jsonDumpFields fs ++ [Char.ofNat 125]
def jsonDumpList : VList → List Char
  | .nil => []
  | .cons v .nil => jsonDumpValue v
  | .cons v (.cons w tl) => jsonDumpValue v ++ ',' :: ' ' :: jsonDumpList (.cons w tl)
def jsonDumpFields : VFields → List Char
  | .nil => []
  | .cons k v .nil => jsonStringChars k ++ ':' :: ' ' :: jsonDumpValue v
  | .cons k v (.cons k2 w tl) =>
    jsonStringChars k ++ ':' :: ' ' :: jsonDumpValue v ++
      ',' :: ' ' :: jsonDumpFields (.cons k2 w tl)
end

/-- `json.dumps` of a whole form record (a dict). -/
def json_dumps_dict (fs : VFields) : String :=
  String.mk (jsonDumpValue (.vdict fs))

/-! ## JSON parsing

Models `json.loads` on the JSON subset the persistence layer produces:
objects, arrays, strings with the standard escapes, integers, `true`,
`false`, `null`.  Python's default strict mode rejects raw control
characters (code points below 32) inside string literals - this is
exactly what makes a stored record with a literal newline inside a
string invalid.  Fractional and exponent number forms and `\u` escapes
for surrogate pairs are outside the subset and make the parser fail;
the persistence layer never writes them.  Recursion is fuelled; each
recursive step consumes at least one character, so the fuel chosen in
`json_loads` is never exhausted. -/

def jsonWsChar (c : Char) : Bool :=
  c = ' ' || c = Char.ofNat 9 || c = Char.ofNat 10 || c = Char.ofNat 13

def skipJsonWs (l : List Char) : List Char := l.dropWhile jsonWsChar

def hexVal (c : Char) : Option Nat :=
  if 48 ≤ c.toNat ∧ c.toNat ≤ 57 then some (c.toNat - 48)
  else if 97 ≤ c.toNat ∧ c.toNat ≤ 102 then some (c.toNat - 87)
  else if 65 ≤ c.toNat ∧ c.toNat ≤ 70 then some (c.toNat - 55)
  else none

/-- Parse the body of a JSON string after the opening quote; returns the
decoded characters and the input after the closing quote. -/
def parseStringBody : Nat → List Char → Option (List Char × List Char)
  | 0, _ => none
  | _ + 1, [] => none
  | fuel + 1, c :: cs =>
    if c = dqChar then some ([], cs)
    else if c = '\\' then
      match cs with
      | [] => none
      | e :: cs2 =>
        if e = dqChar then
          (parseStringBody fuel cs2).map (fun p => (dqChar :: p.1, p.2))
        else if e = '\\' then
          (parseStringBody fuel cs2).map (fun p => ('\\' :: p.1, p.2))
        else if e = '/' then
          (parseStringBody fuel cs2).map (fun p => ('/' :: p.1, p.2))
        else if e = 'b' then
          (parseStringBody fuel cs2).map (fun p => (Char.ofNat 8 :: p.1, p.2))
        else if e = 'f' then
          (parseStringBody fuel cs2).map (fun p => (Char.ofNat 12 :: p.1, p.2))
        else if e = 'n' then
          (parseStringBody fuel cs2).map (fun p => (Char.ofNat 10 :: p.1, p.2))
        else if e = 'r' then
          (parseStringBody fuel cs2).map (fun p => (Char.ofNat 13 :: p.1, p.2))
        else if e = 't' then
          (parseStringBody fuel cs2).map (fun p => (Char.ofNat 9 :: p.1, p.2))
        else if e = 'u' then
          match cs2 with
          | h1 :: h2 :: h3 :: h4 :: cs3 =>
            match hexVal h1, hexVal h2, hexVal h3, hexVal h4 with
            | some a, some b, some c2, some d =>
              let code := ((a * 16 + b) * 16 + c2) * 16 + d
              if 0xD800 ≤ code ∧ code ≤ 0xDFFF then none
              else (parseStringBody fuel cs3).map (fun p => (Char.ofNat code :: p.1, p.2))
            | _, _, _, _ => none
          | _ => none
        else none
    else if c.toNat < 32 then none
    else (parseStringBody fuel cs).map (fun p => (c :: p.1, p.2))

def isDigitChar (c : Char) : Bool := 48 ≤ c.toNat && c.toNat ≤ 57

def digitsVal (l : List Char) : Nat := l.foldl (fun a c => a * 10 + (c.toNat - 48)) 0

/-- Parse a JSON number restricted to the integer forms; a following
fraction or exponent marker makes the parse fail (outside the modelled
subset). -/
def parseIntNumber (l : List Char) : Option (Int × List Char) :=
  let core : List Char → Option (Int × List Char) := fun m =>
    let ds := m.takeWhile isDigitChar
    let rest := m.dropWhile isDigitChar
    if ds = [] then none
    else
      match rest with
      | [] => some ((digitsVal ds : Int), [])
      | r :: _ =>
        if r = '.' ∨ r = 'e' ∨ r = 'E' then none
        else some ((digitsVal ds : Int), rest)
  match l with
  | c :: cs => if c = '-' then (core cs).map (fun p => (-p.1, p.2)) else core l
  | [] => none

mutual
def parseJsonValue : Nat → List Char → Option (Value × List Char)
  | 0, _ => none
  | fuel + 1, l =>
    match skipJsonWs l with
    | [] => none
    | c :: cs =>
      if c = dqChar then
        (parseStringBody fuel cs).map (fun p => (.vstr (String.mk p.1), p.2))
      else if c = Char.ofNat 123 then
        match skipJsonWs cs with
        | d :: ds =>
          if d = Char.ofNat 125 then some (.vdict .nil, ds)
          else (parseJsonMembers fuel (d :: ds)).map (fun p => (.vdict p.1, p.2))
        | [] => none
      else if c = Char.ofNat 91 then
        match skipJsonWs cs with
        | d :: ds =>
          if d = Char.ofNat 93 then some (.vlist .nil, ds)
          else (parseJsonElems fuel (d :: ds)).map (fun p => (.vlist p.1, p.2))
        | [] => none
      else if c = 't' then
        match cs with
        | 'r' :: 'u' :: 'e' :: rest => some (.vbool true, rest)
        | _ => none
      else if c = 'f' then
        match cs with
        | 'a' :: 'l' :: 's' :: 'e' :: rest => some (.vbool false, rest)
        | _ => none
      else if c = 'n' then
        match cs with
        | 'u' :: 'l' :: 'l' :: rest => some (.vnull, rest)
        | _ => none
      else
        (parseIntNumber (c :: cs)).map (fun p => (.vint p.1, p.2))
def parseJsonMembers : Nat → List Char → Option (VFields × List Char)
  | 0, _ => none
  | fuel + 1, l =>
    match skipJsonWs l with
    | c :: cs =>
      if c = dqChar then
        match parseStringBody fuel cs with
        | some (key, rest1) =>
          match skipJsonWs rest1 with
          | ':' :: rest2 =>
            match parseJsonValue fuel rest2 with
            | some (v, rest3) =>
              match skipJsonWs rest3 with
              | ',' :: rest4 =>
                (parseJsonMembers fuel rest4).map
                  (fun p => (.cons (String.mk key) v p.1, p.2))
              | d :: rest4 =>
                if d = Char.ofNat 125 then
                  some (.cons (String.mk key) v .nil, rest4)
                else none
              | [] => none
            | none => none
          | _ => none
        | none => none
      else none
    | [] => none
def parseJsonElems : Nat → List Char → Option (VList × List Char)
  | 0, _ => none
  | fuel + 1, l =>
    match parseJsonValue fuel l with
    | some (v, rest) =>
      match skipJsonWs rest with
      | ',' :: rest2 => (parseJsonElems fuel rest2).map (fun p => (.cons v p.1, p.2))
      | d :: rest2 => if d = Char.ofNat 93 then some (.cons v .nil, rest2) else none
      | [] => none
    | none => none
end

/-- `json.loads`: a full parse of the input, allowing trailing
whitespace only. -/
def json_loads (s : String) : Option Value :=
  match parseJsonValue (s.data.length + 2) s.data with
  | some (v, rest) => if skipJsonWs rest = [] then some v else none
  | none => none

/-! ## The record store

`SLSP_DEMO` holds one row per CID with columns DATA, LAST_UPDATED,
CREATED_AT and PHASE.  Timestamps are abstract strings (the value of
`CURRENT_TIMESTAMP()` at write time is passed in as `now`).  The store
is the success-path semantics of the Snowpark calls: every claim about
transient failures is settled separately against the
`execute_with_retry` model. -/

structure StoredRow where
  data : String
  lastUpdated : Option String
  createdAt : Option String
  phase : Option Int
deriving DecidableEq

def Store : Type := String → Option StoredRow

def updateStore (db : Store) (cid : String) (r : StoredRow) : Store :=
  fun c => if c = cid then some r else db c

/-! ## Query construction

Each `session.sql(...)` call in the source is modelled as the pair of
the SQL text sent and the bound parameters, so that "the query text does
not depend on the user-influenced values" is a statement about these
definitions. -/

inductive SqlParam where
  | pstr (s : String)
  | pint (n : Int)
deriving DecidableEq

structure SqlQuery where
  text : String
  params : List (String × SqlParam)
deriving DecidableEq

/-- snowflake_manager.py line 114 (existence check in `save_form_data`). -/
def exists_check_query (cid : String) : SqlQuery :=
  ⟨"SELECT CID FROM SLSP_DEMO WHERE CID = :cid", [("cid", .pstr cid)]⟩

/-- Line 126 (update with phase). -/
def update_with_phase_query (json_data : String) (phase : Int) (cid : String) : SqlQuery :=
  ⟨"UPDATE SLSP_DEMO SET DATA = :json_data, PHASE = :phase, LAST_UPDATED = CURRENT_TIMESTAMP() WHERE CID = :cid",
    [("json_data", .pstr json_data), ("phase", .pint phase), ("cid", .pstr cid)]⟩

/-- Line 131 (update without phase). -/
def update_query (json_data : String) (cid : String) : SqlQuery :=
  ⟨"UPDATE SLSP_DEMO SET DATA = :json_data, LAST_UPDATED = CURRENT_TIMESTAMP() WHERE CID = :cid",
    [("json_data", .pstr json_data), ("cid", .pstr cid)]⟩

/-- Line 137 (insert with phase). -/
def insert_with_phase_query (cid : String) (json_data : String) (phase : Int) : SqlQuery :=
  ⟨"INSERT INTO SLSP_DEMO (CID, DATA, PHASE, CREATED_AT, LAST_UPDATED) VALUES (:cid, :json_data, :phase, CURRENT_TIMESTAMP(), CURRENT_TIMESTAMP())",
    [("cid", .pstr cid), ("json_data", .pstr json_data), ("phase", .pint phase)]⟩

/-- Line 142 (insert without phase). -/
def insert_query (cid : String) (json_data : String) : SqlQuery :=
  ⟨"INSERT INTO SLSP_DEMO (CID, DATA, CREATED_AT, LAST_UPDATED) VALUES (:cid, :json_data, CURRENT_TIMESTAMP(), CURRENT_TIMESTAMP())",
    [("cid", .pstr cid), ("json_data", .pstr json_data)]⟩

/-- Line 401 (count check in `load_form_data`). -/
def count_query (cid : String) : SqlQuery :=
  ⟨"SELECT COUNT(*) FROM SLSP_DEMO WHERE CID = :cid", [("cid", .pstr cid)]⟩

/-- Line 405 (point lookup in `load_form_data`). -/
def select_data_query (cid : String) : SqlQuery :=
  ⟨"SELECT DATA, LAST_UPDATED, PHASE FROM SLSP_DEMO WHERE CID = :cid", [("cid", .pstr cid)]⟩

/-- Line 241 (lookup in `fix_corrupted_record`). -/
def fix_select_query (cid : String) : SqlQuery :=
  ⟨"SELECT DATA FROM SLSP_DEMO WHERE CID = :cid", [("cid", .pstr cid)]⟩

/-- Lines 255 and 273 (write-back in `fix_corrupted_record`). -/
def fix_update_query (fixed_json : String) (cid : String) : SqlQuery :=
  ⟨"UPDATE SLSP_DEMO SET DATA = :fixed_json, LAST_UPDATED = CURRENT_TIMESTAMP() WHERE CID = :cid",
    [("fixed_json", .pstr fixed_json), ("cid", .pstr cid)]⟩

/-- `SnowflakeManager.get_cid_dataframe` (line 381) builds its filter
with an f-string: `session.table("SLSP_DEMO").filter(f"CID = ...")`
interpolating the CID between single quotes directly into the filter
text, with no bound parameter. -/
def get_cid_dataframe_filter (cid : String) : String :=
  "CID = " ++ String.mk [sqChar] ++ cid ++ String.mk [sqChar]

/-! ## `SnowflakeManager.save_form_data` (lines 109-151), success path

Checks existence of the CID, sanitizes, serializes and then updates or
inserts.  The result records the boolean outcome, the new store and the
queries issued in order. -/

def save_form_data (now : String) (db : Store) (cid : String) (fd : VFields)
    (phase : Option Int) : Bool × Store × List SqlQuery :=
  let json_data := json_dumps_dict (sanitize_form_data fd)
  match db cid with
  | some row =>
    match phase with
    | some p =>
      (true,
        updateStore db cid { row with data := json_data, lastUpdated := some now, phase := some p },
        [exists_check_query cid, update_with_phase_query json_data p cid])
    | none =>
      (true,
        updateStore db cid { row with data := json_data, lastUpdated := some now },
        [exists_check_query cid, update_query json_data cid])
  | none =>
    match phase with
    | some p =>
      (true,
        updateStore db cid ⟨json_data, some now, some now, some p⟩,
        [exists_check_query cid, insert_with_phase_query cid json_data p])
    | none =>
      (true,
        updateStore db cid ⟨json_data, some now, some now, none⟩,
        [exists_check_query cid, insert_query cid json_data])

/-! ## `SnowflakeManager.clean_json_data_advanced` (lines 180-186) -/

def cleanAdvChar (c : Char) : List Char :=
  if c = Char.ofNat 10 then ['\\', 'n']
  else if c = Char.ofNat 9 then ['\\', 't']
  else if c = Char.ofNat 13 then ['\\', 'r']
  else [c]

/-- The three successive `.replace` calls escape literal newlines, tabs
and carriage returns; the characters introduced by one replacement are
never rewritten by a later one, so the sequence acts pointwise. -/
def clean_json_data_advanced (s : String) : String :=
  String.mk ((s.data.map cleanAdvChar).flatten)

/-! ## `SnowflakeManager.process_json_data` (lines 153-170) -/

def process_json_data (raw : String) : Option Value :=
  if raw = "" then none
  else
    match json_loads raw with
    | some v => some v
    | none => json_loads (clean_json_data_advanced raw)

/-! ## `SnowflakeManager.load_form_data` (lines 394-431) -/

/-- Python dict item assignment: replace the value of an existing key in
place, else append the key. -/
def setDictKey : VFields → String → Value → VFields
  | .nil, k, v => .cons k v .nil
  | .cons k2 w tl, k, v =>
    if k2 = k then .cons k2 v tl else .cons k2 w (setDictKey tl k v)

/-- Lines 416-420: metadata keys are attached to the parsed data when
LAST_UPDATED / PHASE are present.  Item assignment on a non-dict value
raises a `TypeError`, which no handler in `load_form_data` catches, so
the load returns none in that case. -/
def addMetadata (v : Value) (lu : Option String) (ph : Option Int) : Option Value :=
  match lu, ph with
  | none, none => some v
  | _, _ =>
    match v with
    | .vdict fs =>
      let fs1 := match lu with
        | some t => setDictKey fs "_last_updated" (.vstr t)
        | none => fs
      let fs2 := match ph with
        | some p => setDictKey fs1 "_phase" (.vint p)
        | none => fs1
      some (.vdict fs2)
    | _ => none

def load_form_data (db : Store) (cid : String) : Option Value × List SqlQuery :=
  let qs := [count_query cid, select_data_query cid]
  match db cid with
  | some row =>
    if row.data = "" then (none, qs)
    else
      match process_json_data row.data with
      | some v => (addMetadata v row.lastUpdated row.phase, qs)
      | none => (none, qs)
  | none => (none, qs)

/-! ## `SnowflakeManager.fix_corrupted_record` (lines 236-287), success
path of the store accesses

If the direct parse succeeds the parsed dict is sanitized and written
back; on a `JSONDecodeError` the escaped text is reparsed and, if that
succeeds, sanitized and written back; otherwise the record is left
untouched and the function returns false.  A successful parse to a
non-dict value makes `sanitize_form_data` raise (`.items` on a
non-dict); the surrounding handlers turn that into a false result
without any write. -/

def fix_corrupted_record (now : String) (db : Store) (cid : String) :
    Bool × Store × List SqlQuery :=
  match db cid with
  | none => (false, db, [fix_select_query cid])
  | some row =>
    match json_loads row.data with
    | some (.vdict fs) =>
      let fixed := json_dumps_dict (sanitize_form_data fs)
      (true,
        updateStore db cid { row with data := fixed, lastUpdated := some now },
        [fix_select_query cid, fix_update_query fixed cid])
    | some _ => (false, db, [fix_select_query cid])
    | none =>
      match json_loads (clean_json_data_advanced row.data) with
      | some (.vdict fs) =>
        let fixed := json_dumps_dict (sanitize_form_data fs)
        (true,
          updateStore db cid { row with data := fixed, lastUpdated := some now },
          [fix_select_query cid, fix_update_query fixed cid])
      | some _ => (false, db, [fix_select_query cid])
      | none => (false, db, [fix_select_query cid])

/-! ## `auto_save_data` (app_ws.py lines 127-149), success path

Returns the (status, message) pair of the source together with the new
store and the queries issued; a blank CID is rejected before any store
access. -/

def auto_save_data (now : String) (db : Store) (cid : String) (fd : VFields) :
    Option String × String × Store × List SqlQuery :=
  if cid = "" ∨ pyStripStr cid = "" then
    (none, "CID required for auto-save", db, [])
  else
    let cidValue := pyStripStr cid
    let loaded := load_form_data db cidValue
    let isUpdate := loaded.1.isSome
    let saved := save_form_data now db cidValue fd none
    if saved.1 then
      if isUpdate then
        (some "updated", "Auto-updated CID: " ++ cidValue, saved.2.1, loaded.2 ++ saved.2.2)
      else
        (some "created", "Auto-created CID: " ++ cidValue, saved.2.1, loaded.2 ++ saved.2.2)
    else
      (some "error", "Auto-save failed for CID: " ++ cidValue, saved.2.1, loaded.2 ++ saved.2.2)

/-! ## `SnowflakeManager.execute_with_retry` (lines 92-107)

`run i` is the outcome of the wrapped operation on attempt `i` (`.error`
models a raised exception, carrying `str(e)`).  The trace records every
attempt, every discard of the cached session and every delay. -/

def hasSubstr : List Char → List Char → Bool
  | [], pat => pat.isEmpty
  | c :: tl, pat => pat.isPrefixOf (c :: tl) || hasSubstr tl pat

/-- ASCII case folding; the `str.lower()` at line 98 only has to fold
the ASCII letters for the three ASCII substring tests that follow. -/
def lowerChar (c : Char) : Char :=
  if 65 ≤ c.toNat ∧ c.toNat ≤ 90 then Char.ofNat (c.toNat + 32) else c

/-- Line 99: `error_msg = str(e).lower()` followed by the three
substring tests. -/
def transient_error (msg : String) : Bool :=
  hasSubstr (msg.data.map lowerChar) "connection".data ||
    hasSubstr (msg.data.map lowerChar) "timeout".data ||
    hasSubstr (msg.data.map lowerChar) "session".data

inductive RetryEvent where
  | attempted (i : Nat)
  | clearedSession
  | slept
deriving DecidableEq

/-- `self.max_retries` set in `__init__` (line 27). -/
def max_retries : Nat := 3

/-- The `for attempt in range(self.max_retries)` loop.  On the last
iteration the retry condition `attempt < self.max_retries - 1` is false,
so the loop always returns or raises before the fuel runs out. -/
def retryLoop {α : Type} (run : Nat → Except String α) :
    Nat → Nat → Except String α × List RetryEvent
  | _, 0 => (.error "", [])
  | attempt, fuel + 1 =>
    match run attempt with
    | .ok a => (.ok a, [.attempted attempt])
    | .error e =>
      if transient_error e = true ∧ attempt < max_retries - 1 then
        let rest := retryLoop run (attempt + 1) fuel
        (rest.1, .attempted attempt :: .clearedSession :: .slept :: rest.2)
      else (.error e, [.attempted attempt])

def execute_with_retry {α : Type} (run : Nat → Except String α) :
    Except String α × List RetryEvent :=
  retryLoop run 0 max_retries

def countAttempts : List RetryEvent → Nat
  | [] => 0
  | .attempted _ :: tl => countAttempts tl + 1
  | .clearedSession :: tl => countAttempts tl
  | .slept :: tl => countAttempts tl

/-! ## The table-row editor (app_ws.py, income section)

`_generate_prijmy_id` (lines 876-881) renders the section prefix, the
millisecond timestamp and the session counter padded to width three with
an f-string, then increments the counter (initialised to 1 at line 866).
Deletion (lines 1034-1047) drops the single selected row of the
dataframe and re-indexes; the bulk-edit pass-through (lines 1026-1031)
re-attaches the original ID column positionally before any delete. -/

/-- Python `format(c, "03d")` for a non-negative counter: left-pad the
decimal digits with zeros to width three (wider numbers print fully). -/
def padded3 (c : Nat) : List Char :=
  List.replicate (3 - (natChars c).length) (Char.ofNat 48) ++ natChars c

/-- The f-string of line 881 with section prefix PR; other sections use
the same shape with prefixes UV, EX, ND. -/
def generate_row_id (prefix2 : List Char) (timestampMs counter : Nat) : String :=
  String.mk (prefix2 ++ natChars timestampMs ++ padded3 counter)

/-- `_generate_prijmy_id`: returns the fresh ID and the incremented
session counter. -/
def generate_prijmy_id (timestampMs counter : Nat) : String × Nat :=
  (generate_row_id ['P', 'R'] timestampMs counter, counter + 1)

structure RowRecord where
  id : String
  selected : Bool
  scalars : List (String × Value)
deriving DecidableEq

/-- The bulk-edit pass-through: `edited_data_with_id.insert(1, "ID",
st.session_state.prijmy_domacnosti["ID"])` re-attaches the original ID
column to the editor output by position. -/
def reattach_ids (origIds : List String) (edited : List (Bool × List (String × Value))) :
    List RowRecord :=
  List.zipWith (fun i e => ⟨i, e.1, e.2⟩) origIds edited

/-- `df.index[df["Vybrať"] == True].tolist()` (line 1036). -/
def selectedIdxs (rows : List RowRecord) : List Nat :=
  (List.range rows.length).filter
    (fun i => match rows[i]? with | some r => r.selected | none => false)

inductive DeleteOutcome where
  | warnNone
  | warnMany
  | deleted (i : Nat)
deriving DecidableEq

/-- Lines 1037-1045: warn (with no state change) unless exactly one row
is selected, else `df.drop(index=i).reset_index(drop=True)`. -/
def delete_selected_row (rows : List RowRecord) : DeleteOutcome × List RowRecord :=
  match selectedIdxs rows with
  | [] => (.warnNone, rows)
  | [i] => (.deleted i, rows.eraseIdx i)
  | _ :: _ :: _ => (.warnMany, rows)

/-! ## Auxiliary predicates and concrete artifacts used by the claims -/

/-- Inverse of `digitChar` on the digit range. -/
def charVal (c : Char) : Nat := c.toNat - 48

/-- No double-quote and no single-quote character (the characters the
sanitizer's step 4 actually inspects). -/
def quoteFreeChars (l : List Char) : Bool :=
  l.all (fun c => !(c = dqChar || c = sqChar))

mutual
def quoteFreeFields : VFields → Bool
  | .nil => true
  | .cons _ v tl => quoteFreeValue v && quoteFreeFields tl
def quoteFreeValue : Value → Bool
  | .vstr s => quoteFreeChars s.data
  | .vlist xs => quoteFreeList xs
  | .vdict fs => quoteFreeFields fs
  | _ => true
def quoteFreeList : VList → Bool
  | .nil => true
  | .cons v tl => quoteFreeValue v && quoteFreeList tl
end

/-! Erase every string leaf (at any depth) to the empty string.  Two
records with the same erasure have the same keys in the same order, the
same sequence lengths and orders, and identical non-string leaves. -/

mutual
def eraseStrFields : VFields → VFields
  | .nil => .nil
  | .cons k v tl => .cons k (eraseStrValue v) (eraseStrFields tl)
def eraseStrValue : Value → Value
  | .vstr _ => .vstr ""
  | .vlist xs => .vlist (eraseStrList xs)
  | .vdict fs => .vdict (eraseStrFields fs)
  | v => v
def eraseStrList : VList → VList
  | .nil => .nil
  | .cons v tl => .cons (eraseStrValue v) (eraseStrList tl)
end

/-- Python dict lookup restricted to the keys present. -/
def lookupField : VFields → String → Option Value
  | .nil, _ => none
  | .cons k v tl, key => if k = key then some v else lookupField tl key

/-- The retry condition exactly as claim C4 states it (connection or
timeout only); written out from the claim to exhibit a message on which
it disagrees with the code's `transient_error`. -/
def claimed_transient (msg : String) : Bool :=
  hasSubstr (msg.data.map lowerChar) "connection".data ||
    hasSubstr (msg.data.map lowerChar) "timeout".data

def emptyStore : Store := fun _ => none

/-- The stored bytes of the C7 scenario: a raw newline inside what
should be a JSON string value. -/
def rawA002 : String :=
  String.mk ([Char.ofNat 123, dqChar] ++ "pribeh".data ++ [dqChar, ':', ' ', dqChar] ++
    "line1".data ++ [Char.ofNat 10] ++ "line2".data ++ [dqChar, Char.ofNat 125])

/-- The bytes the repair writes back for the C7 scenario. -/
def fixedA002 : String :=
  String.mk ([Char.ofNat 123, dqChar] ++ "pribeh".data ++ [dqChar, ':', ' ', dqChar] ++
    "line1 line2".data ++ [dqChar, Char.ofNat 125])

def dbA002 : Store :=
  fun c => if c = "A002" then some ⟨rawA002, none, none, none⟩ else none

/-- A store whose row A1 holds text that fails both JSON parse attempts. -/
def dbBadData : Store :=
  fun c => if c = "A1" then some ⟨"xx", none, some "C0", none⟩ else none

/-- C1 counterexample record: a double quote guarding a leading space. -/
def cexC1 : VFields := .cons "k" (.vstr (String.mk [dqChar, ' ', 'a', dqChar])) .nil

/-- C3 counterexample record: a mapping nested directly as a value. -/
def cexC3 : VFields := .cons "a" (.vdict (.cons "b" (.vstr "x\ny") .nil)) .nil

/-- Concrete record with a string leaf, a nested mapping and a list. -/
def sampleFields : VFields :=
  .cons "k" (.vstr "x\ny")
    (.cons "m" (.vdict (.cons "b" (.vstr "p\tq") .nil))
      (.cons "l" (.vlist (.cons (.vstr " a ") .nil)) .nil))

/-- Three concrete editor rows, only the middle one selected. -/
def rows0 : List RowRecord :=
  [⟨"PR1700000000000001", false, []⟩,
   ⟨"PR1700000000000002", true, []⟩,
   ⟨"PR1700000000001003", false, []⟩]

/-- The output shape guaranteed by the space-collapsing step: no two
adjacent spaces. -/
def noTwoSpaces (l : List Char) : Prop :=
  l.Chain' (fun a b => ¬(a = ' ' ∧ b = ' '))

/-! # Supporting lemmas -/

theorem natCharsAux_eq_digits : ∀ fuel n, n ≤ fuel →
    natCharsAux fuel n = (Nat.digits 10 n).map digitChar := by
  intro fuel
  induction fuel with
  | zero =>
    intro n hn
    interval_cases n
    simp [natCharsAux]
  | succ f ih =>
    intro n hn
    match n with
    | 0 => simp [natCharsAux]
    | m + 1 =>
      rw [natCharsAux, Nat.digits_def' (by norm_num : 1 < 10) (Nat.succ_pos m),
        List.map_cons, ih ((m + 1) / 10) (by omega)]

theorem natChars_eq (n : Nat) :
    natChars n =
      if n = 0 then [Char.ofNat 48] else ((Nat.digits 10 n).map digitChar).reverse := by
  rw [natChars, natCharsAux_eq_digits n n le_rfl]

theorem digitChar_toNat (d : Nat) (hd : d < 10) : (digitChar d).toNat = 48 + d := by
  interval_cases d <;> decide

theorem charVal_digitChar (d : Nat) (hd : d < 10) : charVal (digitChar d) = d := by
  rw [charVal, digitChar_toNat d hd]
  omega

theorem map_charVal_map_digitChar (ds : List Nat) (h : ∀ d ∈ ds, d < 10) :
    (ds.map digitChar).map charVal = ds := by
  rw [List.map_map]
  have : ds.map (charVal ∘ digitChar) = ds.map id :=
    List.map_congr_left (fun d hd => by
      simp only [Function.comp_apply, id_eq, charVal_digitChar d (h d hd)])
  simpa using this

theorem natChars_inj (m n : Nat) (h : natChars m = natChars n) : m = n := by
  rw [natChars_eq, natChars_eq] at h
  by_cases hm : m = 0 <;> by_cases hn : n = 0
  · omega
  · rw [if_pos hm, if_neg hn] at h
    have h2 : (Nat.digits 10 n).map digitChar = [Char.ofNat 48] := by
      have := congrArg List.reverse h
      simpa using this.symm
    have h3 : ((Nat.digits 10 n).map digitChar).map charVal = [0] := by
      rw [h2]; decide
    rw [map_charVal_map_digitChar _ (fun d hd => Nat.digits_lt_base (by norm_num) hd)] at h3
    have := Nat.ofDigits_digits 10 n
    rw [h3] at this
    simp [Nat.ofDigits] at this
    omega
  · rw [if_neg hm, if_pos hn] at h
    have h2 : (Nat.digits 10 m).map digitChar = [Char.ofNat 48] := by
      have := congrArg List.reverse h
      simpa using this
    have h3 : ((Nat.digits 10 m).map digitChar).map charVal = [0] := by
      rw [h2]; decide
    rw [map_charVal_map_digitChar _ (fun d hd => Nat.digits_lt_base (by norm_num) hd)] at h3
    have := Nat.ofDigits_digits 10 m
    rw [h3] at this
    simp [Nat.ofDigits] at this
    omega
  · rw [if_neg hm, if_neg hn] at h
    have h2 := List.reverse_injective h
    have h3 := congrArg (List.map charVal) h2
    rw [map_charVal_map_digitChar _ (fun d hd => Nat.digits_lt_base (by norm_num) hd),
      map_charVal_map_digitChar _ (fun d hd => Nat.digits_lt_base (by norm_num) hd)] at h3
    calc m = Nat.ofDigits 10 (Nat.digits 10 m) := (Nat.ofDigits_digits 10 m).symm
    _ = Nat.ofDigits 10 (Nat.digits 10 n) := by rw [h3]
    _ = n := Nat.ofDigits_digits 10 n

theorem natChars_len_mono (m n : Nat) (h : m ≤ n) :
    (natChars m).length ≤ (natChars n).length := by
  rw [natChars_eq, natChars_eq]
  by_cases hm : m = 0
  · rw [if_pos hm]
    by_cases hn : n = 0
    · rw [if_pos hn]
    · rw [if_neg hn]
      have : Nat.digits 10 n ≠ [] := Nat.digits_ne_nil_iff_ne_zero.mpr hn
      simp only [List.length_reverse, List.length_map, List.length_cons, List.length_nil]
      exact Nat.one_le_iff_ne_zero.mpr (by simpa using this)
  · have hn : n ≠ 0 := by omega
    rw [if_neg hm, if_neg hn]
    simp only [List.length_reverse, List.length_map]
    rw [Nat.digits_len 10 m (by norm_num) hm, Nat.digits_len 10 n (by norm_num) hn]
    exact Nat.succ_le_succ (Nat.log_mono_right h)

theorem natChars_head_ne_zero (n : Nat) (hn : n ≠ 0) :
    ∃ c t, natChars n = c :: t ∧ c ≠ Char.ofNat 48 := by
  rw [natChars_eq, if_neg hn]
  have hne : Nat.digits 10 n ≠ [] := Nat.digits_ne_nil_iff_ne_zero.mpr hn
  have hlast := Nat.getLast_digit_ne_zero 10 hn
  have hsplit := List.dropLast_append_getLast hne
  refine ⟨digitChar ((Nat.digits 10 n).getLast hne), ((Nat.digits 10 n).dropLast.map digitChar).reverse, ?_, ?_⟩
  · conv_lhs => rw [← hsplit]
    rw [List.map_append]
    simp
  · intro hc
    have hd : (Nat.digits 10 n).getLast hne < 10 :=
      Nat.digits_lt_base (by norm_num) (List.getLast_mem hne)
    have := charVal_digitChar _ hd
    rw [hc] at this
    have h0 : charVal (Char.ofNat 48) = 0 := by decide
    rw [h0] at this
    exact hlast this.symm

theorem padded3_length (c : Nat) : (padded3 c).length = max 3 (natChars c).length := by
  rw [padded3]
  simp only [List.length_append, List.length_replicate]
  omega

theorem padded3_inj (c1 c2 : Nat) (h1 : c1 ≠ 0) (h2 : c2 ≠ 0)
    (h : padded3 c1 = padded3 c2) : c1 = c2 := by
  have hlen := congrArg List.length h
  rw [padded3_length, padded3_length] at hlen
  rcases Nat.lt_trichotomy (natChars c1).length (natChars c2).length with hlt | heq | hgt
  · exfalso
    have hle3 : (natChars c2).length ≤ 3 := by omega
    rw [padded3, padded3] at h
    have hsplit : 3 - (natChars c1).length =
        (3 - (natChars c2).length) + ((natChars c2).length - (natChars c1).length) := by omega
    rw [hsplit, List.replicate_add, List.append_assoc] at h
    have h3 := List.append_cancel_left h
    obtain ⟨k, hk⟩ : ∃ k, (natChars c2).length - (natChars c1).length = k + 1 :=
      ⟨(natChars c2).length - (natChars c1).length - 1, by omega⟩
    rw [hk] at h3
    obtain ⟨c, t, hct, hcne⟩ := natChars_head_ne_zero c2 h2
    rw [hct, List.replicate_succ, List.cons_append] at h3
    injection h3 with hz _
    exact hcne hz.symm
  · rw [padded3, padded3, heq] at h
    exact natChars_inj c1 c2 (List.append_cancel_left h)
  · exfalso
    have hle3 : (natChars c1).length ≤ 3 := by omega
    rw [padded3, padded3] at h
    have hsplit : 3 - (natChars c2).length =
        (3 - (natChars c1).length) + ((natChars c1).length - (natChars c2).length) := by omega
    rw [hsplit, List.replicate_add, List.append_assoc] at h
    have h3 := List.append_cancel_left h.symm
    obtain ⟨k, hk⟩ : ∃ k, (natChars c1).length - (natChars c2).length = k + 1 :=
      ⟨(natChars c1).length - (natChars c2).length - 1, by omega⟩
    rw [hk] at h3
    obtain ⟨c, t, hct, hcne⟩ := natChars_head_ne_zero c1 h1
    rw [hct, List.replicate_succ, List.cons_append] at h3
    injection h3 with hz _
    exact hcne hz.symm

theorem padded3_len_mono (c1 c2 : Nat) (h : c1 ≤ c2) :
    (padded3 c1).length ≤ (padded3 c2).length := by
  rw [padded3_length, padded3_length]
  have := natChars_len_mono c1 c2 h
  omega

theorem generate_row_id_inj (p : List Char) (t1 t2 c1 c2 : Nat)
    (hc1 : 1 ≤ c1) (hcc : c1 < c2) (ht : t1 ≤ t2) :
    generate_row_id p t1 c1 ≠ generate_row_id p t2 c2 := by
  intro h
  have hdata := congrArg String.data h
  simp only [generate_row_id] at hdata
  have hdata2 : p ++ (natChars t1 ++ padded3 c1) = p ++ (natChars t2 ++ padded3 c2) := by
    simpa [List.append_assoc] using hdata
  have h1 := List.append_cancel_left hdata2
  have hTlen := natChars_len_mono t1 t2 ht
  have hPlen := padded3_len_mono c1 c2 (Nat.le_of_lt hcc)
  have hlen := congrArg List.length h1
  simp only [List.length_append] at hlen
  have hTeq : (natChars t1).length = (natChars t2).length := by omega
  obtain ⟨hT, hP⟩ := List.append_inj h1 hTeq
  have := padded3_inj c1 c2 (by omega) (by omega) hP
  omega

theorem map_id_reattach (origIds : List String) (edited : List (Bool × List (String × Value)))
    (h : origIds.length = edited.length) :
    (reattach_ids origIds edited).map RowRecord.id = origIds := by
  induction origIds generalizing edited with
  | nil => simp [reattach_ids]
  | cons i tl ih =>
    match edited with
    | [] => simp at h
    | e :: etl =>
      simp only [reattach_ids, List.zipWith_cons_cons, List.map_cons]
      have := ih etl (by simpa using h)
      rw [show reattach_ids tl etl = List.zipWith (fun i e => ⟨i, e.1, e.2⟩) tl etl from rfl] at this
      rw [this]

theorem map_eraseIdx (rows : List RowRecord) (i : Nat) :
    (rows.eraseIdx i).map RowRecord.id = (rows.map RowRecord.id).eraseIdx i := by
  induction rows generalizing i with
  | nil => simp
  | cons r tl ih =>
    match i with
    | 0 => simp [List.eraseIdx]
    | j + 1 => simp [List.eraseIdx, ih j]

/-- C8: editing never changes RowIDs (the bulk-edit pass-through
re-attaches the original ID column), deleting the selected row keeps the
other rows' RowIDs in order, and two IDs generated in one session (the
counter strictly increases, starting at 1; wall-clock milliseconds never
decrease) are always distinct, even inside one millisecond. -/
theorem C8_rowid_stability :
    (∀ (origIds : List String) (edited : List (Bool × List (String × Value))),
        origIds.length = edited.length →
        (reattach_ids origIds edited).map RowRecord.id = origIds) ∧
    (∀ (rows : List RowRecord) (i : Nat), selectedIdxs rows = [i] →
        (delete_selected_row rows).2.map RowRecord.id = (rows.map RowRecord.id).eraseIdx i) ∧
    (∀ t1 t2 c1 c2 : Nat, 1 ≤ c1 → c1 < c2 → t1 ≤ t2 →
        (generate_prijmy_id t1 c1).1 ≠ (generate_prijmy_id t2 c2).1) := by
  refine ⟨map_id_reattach, ?_, ?_⟩
  · intro rows i h
    rw [delete_selected_row, h]
    exact map_eraseIdx rows i
  · intro t1 t2 c1 c2 hc1 hcc ht
    exact generate_row_id_inj ['P', 'R'] t1 t2 c1 c2 hc1 hcc ht

/-- Witness for C8 at concrete inputs: a one-row reattachment, deletion
of the selected middle row of `rows0`, and two IDs generated in the same
millisecond. -/
theorem C8_rowid_stability_witness :
    (reattach_ids ["PR17000001"] [(false, [])]).map RowRecord.id = ["PR17000001"] ∧
    (delete_selected_row rows0).2.map RowRecord.id = (rows0.map RowRecord.id).eraseIdx 1 ∧
    (generate_prijmy_id 1700000000000 1).1 ≠ (generate_prijmy_id 1700000000000 2).1 :=
  ⟨C8_rowid_stability.1 _ _ (by decide),
   C8_rowid_stability.2.1 rows0 1 (by decide),
   C8_rowid_stability.2.2 1700000000000 1700000000000 1 2 (by decide) (by decide) (by decide)⟩

theorem countAttempts_retryLoop_le {α : Type} (run : Nat → Except String α) :
    ∀ fuel att, countAttempts (retryLoop run att fuel).2 ≤ fuel := by
  intro fuel
  induction fuel with
  | zero => intro att; simp [retryLoop, countAttempts]
  | succ f ih =>
    intro att
    rcases hr : run att with e | a
    case error =>
      simp only [retryLoop, hr]
      by_cases hc : transient_error e = true ∧ att < max_retries - 1
      · rw [if_pos hc]
        have := ih (att + 1)
        simp only [countAttempts]
        omega
      · rw [if_neg hc]
        simp [countAttempts]
    case ok => simp [retryLoop, hr, countAttempts]

/-- C4 counterexample: an error whose text matches neither of the two
substrings the claim allows ("connection", "timeout") is nevertheless
retried by `execute_with_retry` - the trace shows three attempts with
the cached session discarded and a delay slept before each retry,
where the claim requires an immediate abort after one attempt. -/
theorem C4_counterexample :
    claimed_transient "session expired" = false ∧
    (execute_with_retry (fun _ => Except.error "session expired") :
        Except String Unit × List RetryEvent).2 =
      [.attempted 0, .clearedSession, .slept, .attempted 1, .clearedSession, .slept,
        .attempted 2] ∧
    countAttempts (execute_with_retry (fun _ => Except.error "session expired") :
        Except String Unit × List RetryEvent).2 = 3 :=
  ⟨by decide, by decide, by decide⟩

/-- C4 amended: the save path makes at most 3 attempts; it retries
exactly on error text containing "connection", "timeout" or "session"
(case-insensitively), discarding the cached session and sleeping before
each retry; every other error aborts immediately after the first
attempt without retry. -/
theorem C4_retry_amended {α : Type} (run : Nat → Except String α) :
    countAttempts (execute_with_retry run).2 ≤ 3 ∧
    (∀ e, run 0 = .error e → transient_error e = false →
        execute_with_retry run = (.error e, [.attempted 0])) ∧
    (∀ e, run 0 = .error e → transient_error e = true →
        ∃ tail, (execute_with_retry run).2 =
          .attempted 0 :: .clearedSession :: .slept :: tail) := by
  refine ⟨countAttempts_retryLoop_le run 3 0, ?_, ?_⟩
  · intro e h0 htr
    simp only [execute_with_retry, max_retries, retryLoop, h0]
    rw [if_neg (by simp [htr])]
  · intro e h0 htr
    simp only [execute_with_retry, max_retries, retryLoop, h0]
    rw [if_pos ⟨htr, by decide⟩]
    exact ⟨_, rfl⟩

/-- Witness for C4 amended: a permanent error aborts with one attempt;
a connection error is retried with the session cleared first. -/
theorem C4_retry_amended_witness :
    countAttempts (execute_with_retry (fun _ => Except.error "PK violation") :
        Except String Unit × List RetryEvent).2 ≤ 3 ∧
    (execute_with_retry (fun _ => Except.error "PK violation") :
        Except String Unit × List RetryEvent) = (.error "PK violation", [.attempted 0]) ∧
    ∃ tail, (execute_with_retry (fun _ => Except.error "connection reset") :
        Except String Unit × List RetryEvent).2 =
      .attempted 0 :: .clearedSession :: .slept :: tail :=
  ⟨(C4_retry_amended (fun _ => Except.error "PK violation")).1,
   (C4_retry_amended (fun _ => Except.error "PK violation")).2.1 _ rfl (by decide),
   (C4_retry_amended (fun _ => Except.error "connection reset")).2.2 _ rfl (by decide)⟩

/-- C5: a CID that is empty, or blank after trimming, makes
`auto_save_data` return the invalid-key outcome (status `None` with the
"CID required" message) immediately: the store is untouched and no
query of any kind (existence check, lookup, insert or update) is
issued. -/
theorem C5_blank_cid_rejected (now : String) (db : Store) (cid : String) (fd : VFields)
    (h : cid = "" ∨ pyStripStr cid = "") :
    auto_save_data now db cid fd = (none, "CID required for auto-save", db, []) := by
  rw [auto_save_data, if_pos h]

/-- Witness for C5: the empty CID and a whitespace-only CID. -/
theorem C5_blank_cid_rejected_witness :
    auto_save_data "T" emptyStore "" .nil = (none, "CID required for auto-save", emptyStore, []) ∧
    auto_save_data "T" emptyStore "  " .nil = (none, "CID required for auto-save", emptyStore, []) :=
  ⟨C5_blank_cid_rejected "T" emptyStore "" .nil (Or.inl rfl),
   C5_blank_cid_rejected "T" emptyStore "  " .nil (Or.inr (by decide))⟩

/-- C9 counterexample: `get_cid_dataframe` is a point lookup by CID, yet
its filter string embeds the CID value between single quotes, so the
query text sent to the store differs for different CIDs - the claim
that every store primitive keeps the query text value-independent is
false. -/
theorem C9_counterexample :
    get_cid_dataframe_filter "A" ≠ get_cid_dataframe_filter "B" ∧
    get_cid_dataframe_filter "A" = "CID = " ++ String.mk [sqChar] ++ "A" ++ String.mk [sqChar] :=
  ⟨by decide, rfl⟩

/-- C9 amended: the primitives of the save/load/repair path (existence
check, count, point lookups, inserts, updates) all have query text
independent of CID and DATA, which are passed only as bound parameters;
`get_cid_dataframe`, however, interpolates the CID into its filter
text. -/
theorem C9_parameter_binding_amended :
    (∀ c1 c2 : String, (exists_check_query c1).text = (exists_check_query c2).text) ∧
    (∀ j1 c1 j2 c2 : String, (update_query j1 c1).text = (update_query j2 c2).text) ∧
    (∀ (j1 : String) (p1 : Int) (c1 j2 : String) (p2 : Int) (c2 : String),
        (update_with_phase_query j1 p1 c1).text = (update_with_phase_query j2 p2 c2).text) ∧
    (∀ c1 j1 c2 j2 : String, (insert_query c1 j1).text = (insert_query c2 j2).text) ∧
    (∀ (c1 j1 : String) (p1 : Int) (c2 j2 : String) (p2 : Int),
        (insert_with_phase_query c1 j1 p1).text = (insert_with_phase_query c2 j2 p2).text) ∧
    (∀ c1 c2 : String, (count_query c1).text = (count_query c2).text) ∧
    (∀ c1 c2 : String, (select_data_query c1).text = (select_data_query c2).text) ∧
    (∀ c1 c2 : String, (fix_select_query c1).text = (fix_select_query c2).text) ∧
    (∀ f1 c1 f2 c2 : String, (fix_update_query f1 c1).text = (fix_update_query f2 c2).text) ∧
    (∀ cid : String, (exists_check_query cid).params = [("cid", .pstr cid)]) ∧
    (∀ j cid : String, (update_query j cid).params =
        [("json_data", .pstr j), ("cid", .pstr cid)]) ∧
    (∀ cid j : String, (insert_query cid j).params =
        [("cid", .pstr cid), ("json_data", .pstr j)]) ∧
    (∀ f cid : String, (fix_update_query f cid).params =
        [("fixed_json", .pstr f), ("cid", .pstr cid)]) ∧
    (∀ cid : String,
        get_cid_dataframe_filter cid = "CID = " ++ String.mk [sqChar] ++ cid ++ String.mk [sqChar]) :=
  ⟨fun _ _ => rfl, fun _ _ _ _ => rfl, fun _ _ _ _ _ _ => rfl, fun _ _ _ _ => rfl,
   fun _ _ _ _ _ _ => rfl, fun _ _ => rfl, fun _ _ => rfl, fun _ _ => rfl,
   fun _ _ _ _ => rfl, fun _ => rfl, fun _ _ => rfl, fun _ _ => rfl, fun _ _ => rfl,
   fun _ => rfl⟩

/-- C6: `fix_corrupted_record` returns false and leaves the store
unchanged (byte-for-byte, only the lookup query issued) whenever the
CID is absent or both the direct parse and the parse of the
escaped text fail; and whenever the store changed at all, one of the
two parses must have succeeded (on a dict, which is what a stored form
record is). -/
theorem C6_repair_no_write (now : String) (db : Store) (cid : String) :
    ((db cid = none ∨ ∃ row, db cid = some row ∧ json_loads row.data = none ∧
        json_loads (clean_json_data_advanced row.data) = none) →
      fix_corrupted_record now db cid = (false, db, [fix_select_query cid])) ∧
    ((fix_corrupted_record now db cid).2.1 ≠ db →
      ∃ row fs, db cid = some row ∧
        (json_loads row.data = some (.vdict fs) ∨
         json_loads (clean_json_data_advanced row.data) = some (.vdict fs))) := by
  constructor
  · rintro (habs | ⟨row, hrow, h1, h2⟩)
    · rw [fix_corrupted_record, habs]
    · simp only [fix_corrupted_record, hrow, h1, h2]
  · intro hne
    match hrow : db cid with
    | none => exact absurd (by simp [fix_corrupted_record, hrow]) hne
    | some row =>
      match h1 : json_loads row.data with
      | some (.vdict fs) => exact ⟨row, fs, rfl, Or.inl h1⟩
      | some (.vstr s) => exact absurd (by simp [fix_corrupted_record, hrow, h1]) hne
      | some (.vint n) => exact absurd (by simp [fix_corrupted_record, hrow, h1]) hne
      | some (.vbool b) => exact absurd (by simp [fix_corrupted_record, hrow, h1]) hne
      | some .vnull => exact absurd (by simp [fix_corrupted_record, hrow, h1]) hne
      | some (.vlist xs) => exact absurd (by simp [fix_corrupted_record, hrow, h1]) hne
      | none =>
        match h2 : json_loads (clean_json_data_advanced row.data) with
        | some (.vdict fs) => exact ⟨row, fs, rfl, Or.inr h2⟩
        | some (.vstr s) => exact absurd (by simp [fix_corrupted_record, hrow, h1, h2]) hne
        | some (.vint n) => exact absurd (by simp [fix_corrupted_record, hrow, h1, h2]) hne
        | some (.vbool b) => exact absurd (by simp [fix_corrupted_record, hrow, h1, h2]) hne
        | some .vnull => exact absurd (by simp [fix_corrupted_record, hrow, h1, h2]) hne
        | some (.vlist xs) => exact absurd (by simp [fix_corrupted_record, hrow, h1, h2]) hne
        | none => exact absurd (by simp [fix_corrupted_record, hrow, h1, h2]) hne

/-- Witness for C6: repairing an absent CID on the empty store returns
false and issues only the lookup; repairing unparseable data returns
false and leaves the row as it was. -/
theorem C6_repair_no_write_witness :
    fix_corrupted_record "T" emptyStore "X" = (false, emptyStore, [fix_select_query "X"]) ∧
    fix_corrupted_record "T" dbBadData "A1" = (false, dbBadData, [fix_select_query "A1"]) ∧
    (∃ row fs, dbA002 "A002" = some row ∧
      (json_loads row.data = some (.vdict fs) ∨
       json_loads (clean_json_data_advanced row.data) = some (.vdict fs))) :=
  ⟨(C6_repair_no_write "T" emptyStore "X").1 (Or.inl rfl),
   (C6_repair_no_write "T" dbBadData "A1").1
     (Or.inr ⟨⟨"xx", none, some "C0", none⟩, rfl, by decide, by decide⟩),
   (C6_repair_no_write "TS" dbA002 "A002").2 (fun heq => by
     have h2 := congrFun heq "A002"
     revert h2
     decide)⟩

/-- C7: on a stored DATA equal to the literal bytes of an object whose
string value contains a raw newline (invalid JSON - fourth conjunct),
repair succeeds, and the stored bytes afterwards parse cleanly to the
record with the newline collapsed to a single space. -/
theorem C7_repair_scenario :
    (fix_corrupted_record "TS" dbA002 "A002").1 = true ∧
    (fix_corrupted_record "TS" dbA002 "A002").2.1 "A002" =
      some ⟨fixedA002, some "TS", none, none⟩ ∧
    process_json_data fixedA002 =
      some (.vdict (.cons "pribeh" (.vstr "line1 line2") .nil)) ∧
    json_loads rawA002 = none :=
  ⟨by decide, by decide, by decide, by decide⟩

/-- C10: when the row for the CID exists but its DATA fails both JSON
parse attempts, `auto_save_data` classifies the save as "created"
(because `load_form_data` returned nothing), even though
`save_form_data`'s own existence check finds the row and issues the
UPDATE - the row is overwritten in place, keeping its CREATED_AT. -/
theorem C10_created_on_unparseable_row (now : String) (db : Store) (cid : String)
    (fd : VFields) (row : StoredRow)
    (hne : cid ≠ "") (hstrip : pyStripStr cid = cid)
    (hrow : db cid = some row) (hdata : row.data ≠ "")
    (h1 : json_loads row.data = none)
    (h2 : json_loads (clean_json_data_advanced row.data) = none) :
    auto_save_data now db cid fd =
      (some "created", "Auto-created CID: " ++ cid,
        updateStore db cid
          { row with data := json_dumps_dict (sanitize_form_data fd), lastUpdated := some now },
        [count_query cid, select_data_query cid, exists_check_query cid,
          update_query (json_dumps_dict (sanitize_form_data fd)) cid]) := by
  have hcond : ¬(cid = "" ∨ pyStripStr cid = "") := by
    rw [hstrip]
    exact fun h => absurd (h.elim id id) hne
  simp only [auto_save_data, if_neg hcond, hstrip, load_form_data, hrow, if_neg hdata,
    process_json_data, h1, h2, save_form_data, Option.isSome_none, Bool.false_eq_true,
    if_true, if_false]
  rw [if_neg (by simpa using hne)]
  simp

/-- Witness for C10: a store whose row A1 holds the unparseable text
"xx". -/
theorem C10_created_on_unparseable_row_witness :
    auto_save_data "T" dbBadData "A1" .nil =
      (some "created", "Auto-created CID: " ++ "A1",
        updateStore dbBadData "A1"
          { data := json_dumps_dict (sanitize_form_data .nil), lastUpdated := some "T",
            createdAt := some "C0", phase := none },
        [count_query "A1", select_data_query "A1", exists_check_query "A1",
          update_query (json_dumps_dict (sanitize_form_data .nil)) "A1"]) :=
  C10_created_on_unparseable_row "T" dbBadData "A1" .nil ⟨"xx", none, some "C0", none⟩
    (by decide) (by decide) rfl (by decide) (by decide) (by decide)

/-- C2 as a code bug: the single quote (ASCII apostrophe) and the curly
quote variants survive sanitization unchanged, although both the spec
and the code's own step-4 comment ("Remove all quotes") require them to
be deleted; only the ASCII double quote is removed. -/
theorem C2_quotes_survive :
    sanitize_string (String.mk ['i', 't', sqChar, 's']) = String.mk ['i', 't', sqChar, 's'] ∧
    sanitize_string (String.mk [Char.ofNat 8216, 'a', Char.ofNat 8217]) =
      String.mk [Char.ofNat 8216, 'a', Char.ofNat 8217] ∧
    sanitize_string (String.mk [Char.ofNat 8220, 'b', Char.ofNat 8221]) =
      String.mk [Char.ofNat 8220, 'b', Char.ofNat 8221] ∧
    sanitize_string (String.mk [dqChar, 'c', dqChar]) = String.mk ['c'] :=
  ⟨by decide, by decide, by decide, by decide⟩

theorem sanChar_cases (c : Char) : sanChar c = ' ' ∨ sanChar c = c := by
  rw [sanChar, step1Char, step2Char]
  split_ifs <;> simp_all [step2Char]

theorem sanChar_idem (c : Char) : sanChar (sanChar c) = sanChar c := by
  rcases sanChar_cases c with h | h
  · rw [h]; decide
  · rw [h, h]

theorem mem_collapseSpaces : ∀ (l : List Char) (c : Char), c ∈ collapseSpaces l → c ∈ l := by
  intro l
  induction l with
  | nil => simp [collapseSpaces]
  | cons a tl ih =>
    match tl with
    | [] => simp [collapseSpaces]
    | b :: rest =>
      intro c hc
      rw [collapseSpaces] at hc
      split_ifs at hc with h
      · exact List.mem_cons_of_mem a (ih c hc)
      · rcases List.mem_cons.mp hc with h1 | h1
        · exact h1 ▸ List.mem_cons_self a _
        · exact List.mem_cons_of_mem a (ih c h1)

theorem collapseSpaces_cons (d : Char) (rest : List Char) :
    ∃ t, collapseSpaces (d :: rest) = d :: t := by
  induction rest generalizing d with
  | nil => exact ⟨[], rfl⟩
  | cons e rs ih =>
    rw [collapseSpaces]
    split_ifs with h
    · obtain ⟨t, ht⟩ := ih e
      exact ⟨t, by rw [ht, h.1, h.2]⟩
    · exact ⟨collapseSpaces (e :: rs), rfl⟩

theorem noTwoSpaces_collapseSpaces : ∀ l : List Char, noTwoSpaces (collapseSpaces l) := by
  intro l
  induction l with
  | nil => simp [collapseSpaces, noTwoSpaces]
  | cons a tl ih =>
    match tl with
    | [] => simp [collapseSpaces, noTwoSpaces]
    | b :: rest =>
      rw [collapseSpaces]
      split_ifs with h
      · exact ih
      · obtain ⟨t, ht⟩ := collapseSpaces_cons b rest
        rw [ht]
        rw [ht] at ih
        exact List.Chain'.cons h ih

theorem collapseSpaces_eq_self : ∀ l : List Char, noTwoSpaces l → collapseSpaces l = l := by
  intro l
  induction l with
  | nil => intro _; rfl
  | cons a tl ih =>
    match tl with
    | [] => intro _; rfl
    | b :: rest =>
      intro h
      rw [noTwoSpaces, List.chain'_cons] at h
      rw [collapseSpaces, if_neg h.1, ih h.2]

theorem pyStrip_infixOf (l : List Char) : pyStrip l <:+: l := by
  have h1 : pyLstrip l <:+ l := List.dropWhile_suffix _
  have h2 : pyRstrip (pyLstrip l) <+: pyLstrip l := by
    rw [pyRstrip]
    have := List.dropWhile_suffix (l := (pyLstrip l).reverse) (fun c => isPyWs c)
    have h3 := List.reverse_prefix.mpr this
    simpa using h3
  exact List.IsInfix.trans (List.IsPrefix.isInfix h2) (List.IsSuffix.isInfix h1)

theorem mem_pyStrip (l : List Char) (c : Char) (h : c ∈ pyStrip l) : c ∈ l :=
  List.IsInfix.subset (pyStrip_infixOf l) h

theorem noTwoSpaces_pyStrip (l : List Char) (h : noTwoSpaces l) : noTwoSpaces (pyStrip l) :=
  List.Chain'.infix h (pyStrip_infixOf l)

theorem dropWhile_idem (p : Char → Bool) (l : List Char) :
    (l.dropWhile p).dropWhile p = l.dropWhile p := by
  induction l with
  | nil => rfl
  | cons a tl ih =>
    by_cases h : p a
    · rw [List.dropWhile_cons_of_pos h, ih]
    · rw [List.dropWhile_cons_of_neg h, List.dropWhile_cons_of_neg h]

theorem dropWhile_eq_self_of_prefix (p : Char → Bool) (l l2 : List Char)
    (h : l.dropWhile p = l) (hp : l2 <+: l) : l2.dropWhile p = l2 := by
  match l2, hp with
  | [], _ => rfl
  | c :: t2, hp =>
    obtain ⟨t, ht⟩ := hp
    rw [List.cons_append] at ht
    subst ht
    by_cases hc : p c
    · exfalso
      rw [List.dropWhile_cons_of_pos hc] at h
      have := congrArg List.length h
      have hle := List.Sublist.length_le (List.IsSuffix.sublist (List.dropWhile_suffix p (l := t2 ++ t)))
      simp only [List.length_cons, List.length_append] at this hle
      omega
    · rw [List.dropWhile_cons_of_neg hc]

theorem pyRstrip_idem (l : List Char) : pyRstrip (pyRstrip l) = pyRstrip l := by
  rw [pyRstrip, pyRstrip, List.reverse_reverse, dropWhile_idem]

theorem pyStrip_idem (l : List Char) : pyStrip (pyStrip l) = pyStrip l := by
  rw [pyStrip, pyStrip]
  have h1 : pyLstrip (pyLstrip l) = pyLstrip l := dropWhile_idem _ _
  have h2 : pyLstrip (pyRstrip (pyLstrip l)) = pyRstrip (pyLstrip l) := by
    rw [pyLstrip]
    apply dropWhile_eq_self_of_prefix _ (pyLstrip l)
    · exact dropWhile_idem _ _
    · rw [pyRstrip]
      have := List.dropWhile_suffix (l := (pyLstrip l).reverse) (fun c => isPyWs c)
      have h3 := List.reverse_prefix.mpr this
      simpa using h3
  rw [h2, pyRstrip_idem]

theorem removeOddPatAux_eq_self : ∀ (fuel : Nat) (l : List Char), sqChar ∉ l →
    removeOddPatAux fuel l = l := by
  intro fuel
  induction fuel with
  | zero => intro l _; rfl
  | succ f ih =>
    intro l hsq
    match l with
    | [] => rfl
    | c :: cs =>
      rw [removeOddPatAux]
      have hpre : oddPat.isPrefixOf (c :: cs) = false := by
        by_contra h
        have h2 : oddPat <+: c :: cs := List.isPrefixOf_iff_prefix.mp (by simpa using h)
        have : sqChar ∈ c :: cs := List.IsPrefix.subset h2 (by decide)
        exact hsq this
      rw [hpre]
      simp only [Bool.false_eq_true, if_false]
      rw [ih cs (fun h => hsq (List.mem_cons_of_mem c h))]

theorem removeOddPat_eq_self (l : List Char) (h : sqChar ∉ l) : removeOddPat l = l :=
  removeOddPatAux_eq_self l.length l h

theorem removeDq_eq_self (l : List Char) (h : dqChar ∉ l) : removeDq l = l := by
  rw [removeDq]
  rw [List.filter_eq_self]
  intro a ha
  simp only [ne_eq, decide_not]
  by_contra hc
  simp at hc
  exact h (hc ▸ ha)

theorem step4_eq_self (l : List Char) (h : quoteFreeChars l = true) : step4 l = l := by
  rw [quoteFreeChars, List.all_eq_true] at h
  have hdq : dqChar ∉ l := by
    intro hm
    have := h dqChar hm
    simp at this
  have hsq : sqChar ∉ l := by
    intro hm
    have := h sqChar hm
    simp at this
  rw [step4, removeDq_eq_self l hdq, removeOddPat_eq_self l hsq]

theorem mem_map_sanChar (l : List Char) (c : Char) (h : c ∈ l.map sanChar) :
    c = ' ' ∨ c ∈ l := by
  obtain ⟨c0, hc0, rfl⟩ := List.mem_map.mp h
  rcases sanChar_cases c0 with h1 | h1
  · exact Or.inl h1
  · rw [h1]
    exact Or.inr hc0

theorem mem_removeOddPatAux : ∀ (fuel : Nat) (l : List Char) (c : Char),
    c ∈ removeOddPatAux fuel l → c ∈ l := by
  intro fuel
  induction fuel with
  | zero => intro l c h; exact h
  | succ f ih =>
    intro l c h
    match l with
    | [] => exact h
    | a :: cs =>
      rw [removeOddPatAux] at h
      split_ifs at h with hp
      · exact List.mem_of_mem_drop (ih _ c h)
      · rcases List.mem_cons.mp h with h1 | h1
        · exact h1 ▸ List.mem_cons_self a _
        · exact List.mem_cons_of_mem a (ih cs c h1)

theorem mem_step4 (l : List Char) (c : Char) (h : c ∈ step4 l) : c ∈ l := by
  rw [step4, removeOddPat] at h
  have h1 := mem_removeOddPatAux _ _ _ h
  exact List.mem_of_mem_filter h1

theorem mapSan_eq (l : List Char) : (l.map step1Char).map step2Char = l.map sanChar := by
  rw [List.map_map]
  rfl

theorem mem_sanitizeChars (l : List Char) (c : Char) (h : c ∈ sanitizeChars l) :
    c = ' ' ∨ c ∈ l := by
  rw [sanitizeChars, mapSan_eq] at h
  exact mem_map_sanChar l c (mem_collapseSpaces _ _ (mem_pyStrip _ _ (mem_step4 _ _ h)))

theorem quoteFreeChars_stable (l : List Char) (h : quoteFreeChars l = true) :
    quoteFreeChars (sanitizeChars l) = true := by
  rw [quoteFreeChars, List.all_eq_true] at h ⊢
  intro c hc
  rcases mem_sanitizeChars l c hc with rfl | hc2
  · decide
  · exact h c hc2

theorem sanitizeChars_fixed_chars (l : List Char) (c : Char) (h : c ∈ sanitizeChars l) :
    sanChar c = c := by
  rw [sanitizeChars, mapSan_eq] at h
  have h1 := mem_collapseSpaces _ _ (mem_pyStrip _ _ (mem_step4 _ _ h))
  obtain ⟨c0, _, rfl⟩ := List.mem_map.mp h1
  exact sanChar_idem c0

theorem quoteFree_interm (l : List Char) (h : quoteFreeChars l = true) :
    quoteFreeChars (pyStrip (collapseSpaces (l.map sanChar))) = true := by
  rw [quoteFreeChars, List.all_eq_true] at h ⊢
  intro c hc
  have h1 := mem_map_sanChar l c (mem_collapseSpaces _ _ (mem_pyStrip _ _ hc))
  rcases h1 with rfl | hc2
  · decide
  · exact h c hc2

theorem sanitizeChars_eq_of_quoteFree (l : List Char) (h : quoteFreeChars l = true) :
    sanitizeChars l = pyStrip (collapseSpaces (l.map sanChar)) := by
  rw [sanitizeChars, mapSan_eq, step4_eq_self _ (quoteFree_interm l h)]

theorem sanitizeChars_idem (l : List Char) (h : quoteFreeChars l = true) :
    sanitizeChars (sanitizeChars l) = sanitizeChars l := by
  have hq2 : quoteFreeChars (sanitizeChars l) = true := quoteFreeChars_stable l h
  rw [sanitizeChars_eq_of_quoteFree _ hq2]
  have hfix : (sanitizeChars l).map sanChar = sanitizeChars l := by
    have := List.map_congr_left (l := sanitizeChars l) (f := sanChar) (g := id)
      (fun c hc => sanitizeChars_fixed_chars l c hc)
    simpa using this
  rw [hfix]
  conv_lhs => rw [sanitizeChars_eq_of_quoteFree l h]
  have hnts : noTwoSpaces (pyStrip (collapseSpaces (l.map sanChar))) :=
    noTwoSpaces_pyStrip _ (noTwoSpaces_collapseSpaces _)
  rw [collapseSpaces_eq_self _ hnts, pyStrip_idem]
  exact (sanitizeChars_eq_of_quoteFree l h).symm

theorem sanitize_string_idem (s : String) (h : quoteFreeChars s.data = true) :
    sanitize_string (sanitize_string s) = sanitize_string s := by
  rw [sanitize_string, sanitize_string]
  exact congrArg String.mk (sanitizeChars_idem s.data h)

mutual
theorem sanitize_form_data_idem : ∀ fs, quoteFreeFields fs = true →
    sanitize_form_data (sanitize_form_data fs) = sanitize_form_data fs
  | .nil, _ => rfl
  | .cons k v tl, h => by
    have h12 : quoteFreeValue v = true ∧ quoteFreeFields tl = true := by
      simpa [quoteFreeFields] using h
    show VFields.cons k (sanitizeTopValue (sanitizeTopValue v))
        (sanitize_form_data (sanitize_form_data tl)) = _
    rw [sanitizeTopValue_idem v h12.1, sanitize_form_data_idem tl h12.2]
    rfl
theorem sanitizeTopValue_idem : ∀ v, quoteFreeValue v = true →
    sanitizeTopValue (sanitizeTopValue v) = sanitizeTopValue v
  | .vstr s, h => congrArg Value.vstr (sanitize_string_idem s h)
  | .vint _, _ => rfl
  | .vbool _, _ => rfl
  | .vnull, _ => rfl
  | .vlist xs, h => congrArg Value.vlist (sanitizeListItems_idem xs h)
  | .vdict _, _ => rfl
theorem sanitizeListItems_idem : ∀ xs, quoteFreeList xs = true →
    sanitizeListItems (sanitizeListItems xs) = sanitizeListItems xs
  | .nil, _ => rfl
  | .cons v tl, h => by
    have h12 : quoteFreeValue v = true ∧ quoteFreeList tl = true := by
      simpa [quoteFreeList] using h
    show VList.cons (sanitizeItem (sanitizeItem v))
        (sanitizeListItems (sanitizeListItems tl)) = _
    rw [sanitizeItem_idem v h12.1, sanitizeListItems_idem tl h12.2]
    rfl
theorem sanitizeItem_idem : ∀ v, quoteFreeValue v = true →
    sanitizeItem (sanitizeItem v) = sanitizeItem v
  | .vstr s, h => congrArg Value.vstr (sanitize_string_idem s h)
  | .vint _, _ => rfl
  | .vbool _, _ => rfl
  | .vnull, _ => rfl
  | .vlist _, _ => rfl
  | .vdict fs, h => congrArg Value.vdict (sanitize_form_data_idem fs h)
end

/-- C1 counterexample: the record with the single string leaf
double-quote, space, a, double-quote.  Step 4 deletes the quotes only
after step 3 has collapsed and trimmed, so the first sanitization
exposes a leading space that only the second sanitization removes:
sanitize is not idempotent. -/
theorem C1_counterexample :
    sanitize_form_data (sanitize_form_data cexC1) ≠ sanitize_form_data cexC1 ∧
    sanitize_form_data cexC1 = .cons "k" (.vstr " a") .nil ∧
    sanitize_form_data (sanitize_form_data cexC1) = .cons "k" (.vstr "a") .nil :=
  ⟨by decide, by decide, by decide⟩

/-- C1 amended: sanitize is idempotent on every record whose string
leaves contain no double-quote and no single-quote character (so that
the quote-deletion step, which runs after space collapsing and
trimming, removes nothing). -/
theorem C1_sanitize_idempotent_amended (fs : VFields) (h : quoteFreeFields fs = true) :
    sanitize_form_data (sanitize_form_data fs) = sanitize_form_data fs :=
  sanitize_form_data_idem fs h

/-- Witness for amended C1: a quote-free record with a string leaf, a
nested mapping and a list of strings. -/
theorem C1_sanitize_idempotent_amended_witness :
    quoteFreeFields sampleFields = true ∧
    sanitize_form_data (sanitize_form_data sampleFields) = sanitize_form_data sampleFields :=
  ⟨by decide, C1_sanitize_idempotent_amended sampleFields (by decide)⟩

mutual
theorem eraseStr_sanitize_fields : ∀ fs,
    eraseStrFields (sanitize_form_data fs) = eraseStrFields fs
  | .nil => rfl
  | .cons k v tl => by
    show VFields.cons k (eraseStrValue (sanitizeTopValue v))
        (eraseStrFields (sanitize_form_data tl)) = _
    rw [eraseStr_sanitizeTop v, eraseStr_sanitize_fields tl]
    rfl
theorem eraseStr_sanitizeTop : ∀ v, eraseStrValue (sanitizeTopValue v) = eraseStrValue v
  | .vstr _ => rfl
  | .vint _ => rfl
  | .vbool _ => rfl
  | .vnull => rfl
  | .vlist xs => congrArg Value.vlist (eraseStr_sanitizeItems xs)
  | .vdict _ => rfl
theorem eraseStr_sanitizeItems : ∀ xs, eraseStrList (sanitizeListItems xs) = eraseStrList xs
  | .nil => rfl
  | .cons v tl => by
    show VList.cons (eraseStrValue (sanitizeItem v)) (eraseStrList (sanitizeListItems tl)) = _
    rw [eraseStr_sanitizeItem v, eraseStr_sanitizeItems tl]
    rfl
theorem eraseStr_sanitizeItem : ∀ v, eraseStrValue (sanitizeItem v) = eraseStrValue v
  | .vstr _ => rfl
  | .vint _ => rfl
  | .vbool _ => rfl
  | .vnull => rfl
  | .vlist _ => rfl
  | .vdict fs => congrArg Value.vdict (eraseStr_sanitize_fields fs)
end

theorem lookup_sanitize : ∀ (fs : VFields) (k : String),
    lookupField (sanitize_form_data fs) k = (lookupField fs k).map sanitizeTopValue
  | .nil, _ => rfl
  | .cons k2 v tl, k => by
    show (if k2 = k then some (sanitizeTopValue v) else lookupField (sanitize_form_data tl) k) = _
    rw [lookupField]
    by_cases hk : k2 = k
    · rw [if_pos hk, if_pos hk]
      rfl
    · rw [if_neg hk, if_neg hk, lookup_sanitize tl k]

/-- C3 counterexample: a mapping nested directly as a value of a key is
returned unchanged by `sanitize_form_data` (the non-string, non-list
branch), so its inner string leaf keeps its newline even though the
claimed transformation would rewrite it. -/
theorem C3_counterexample :
    sanitize_form_data cexC3 = cexC3 ∧ sanitize_string "x\ny" ≠ "x\ny" :=
  ⟨by decide, by decide⟩

/-- C3 amended: sanitization preserves the record skeleton (same keys in
order, same sequence lengths and order, all non-string leaves
unchanged); a string value of a key is sanitized, a list value is
sanitized element-wise (strings sanitized, nested dicts recursed), but a
mapping that is the direct value of a key passes through entirely
unchanged - its string leaves are not transformed. -/
theorem C3_structure_amended (fs : VFields) :
    eraseStrFields (sanitize_form_data fs) = eraseStrFields fs ∧
    (∀ k s, lookupField fs k = some (.vstr s) →
        lookupField (sanitize_form_data fs) k = some (.vstr (sanitize_string s))) ∧
    (∀ k inner, lookupField fs k = some (.vdict inner) →
        lookupField (sanitize_form_data fs) k = some (.vdict inner)) ∧
    (∀ k xs, lookupField fs k = some (.vlist xs) →
        lookupField (sanitize_form_data fs) k = some (.vlist (sanitizeListItems xs))) := by
  refine ⟨eraseStr_sanitize_fields fs, ?_, ?_, ?_⟩
  · intro k s h
    rw [lookup_sanitize, h]
    rfl
  · intro k inner h
    rw [lookup_sanitize, h]
    rfl
  · intro k xs h
    rw [lookup_sanitize, h]
    rfl

/-- Witness for amended C3 at `sampleFields`: a string key is
sanitized, the nested mapping passes through unchanged, the list is
sanitized element-wise. -/
theorem C3_structure_amended_witness :
    eraseStrFields (sanitize_form_data sampleFields) = eraseStrFields sampleFields ∧
    lookupField (sanitize_form_data sampleFields) "k" = some (.vstr (sanitize_string "x\ny")) ∧
    lookupField (sanitize_form_data sampleFields) "m" =
      some (.vdict (.cons "b" (.vstr "p\tq") .nil)) ∧
    lookupField (sanitize_form_data sampleFields) "l" =
      some (.vlist (sanitizeListItems (.cons (.vstr " a ") .nil))) :=
  ⟨(C3_structure_amended sampleFields).1,
   (C3_structure_amended sampleFields).2.1 "k" _ (by decide),
   (C3_structure_amended sampleFields).2.2.1 "m" _ (by decide),
   (C3_structure_amended sampleFields).2.2.2 "l" _ (by decide)⟩
